import Mathlib

/-!
# Verification of the comic-panel generation pipeline

Shallow embedding of the three source variants of this repository
(`src/index.tsx`, `src/unnamed/part_000`, `src/unnamed/part_001`):
the streaming part demultiplexer and slide assembler, the two-stage
script/image pipeline, the script post-processing (code-fence cleanup
and JSON parsing), and the `parseError` helper.

All definitions are executable; JavaScript builtins used by the code
(`JSON.parse`, `String.prototype.trim`, the regex in `parseError`,
template-literal stringification) are modelled explicitly.
-/

namespace Comwork

/-! ## Character classes

`isJsonWs` is the whitespace accepted around JSON tokens by `JSON.parse`
(space, tab, line feed, carriage return).  `isJsWs` models the JavaScript
`\s` class / `String.prototype.trim` whitespace (the common members:
space, tab, LF, CR, vertical tab, form feed, NBSP, BOM). -/
def isJsonWs (c : Char) : Bool :=
  c = ' ' || c = '\t' || c = '\n' || c = '\r'

def isJsWs (c : Char) : Bool :=
  c = ' ' || c = '\t' || c = '\n' || c = '\r' || c = '\x0b' || c = '\x0c' ||
  c = ' ' || c = '﻿'

def dropTrail (p : Char → Bool) (cs : List Char) : List Char :=
  (cs.reverse.dropWhile p).reverse

def trimBy (p : Char → Bool) (cs : List Char) : List Char :=
  dropTrail p (cs.dropWhile p)

/-- Models JavaScript `String.prototype.trim`. -/
def jsTrim (s : String) : String :=
  ⟨trimBy isJsWs s.data⟩

/-! ## Stream parts and the per-part state
(`src/index.tsx` lines 82-116, `src/unnamed/part_000` lines 98-118).

A `Part` is one fragment of a streamed response; the code reads the two
properties `part.text` and `part.inlineData` (either may be absent). -/
structure Part where
  text : Option String
  inlineData : Option String
deriving DecidableEq, Repr

/-- JavaScript truthiness of `part.text`: present and non-empty. -/
def partTextTruthy (p : Part) : Bool :=
  match p.text with
  | some t => t ≠ ""
  | none => false

/-- `img.src = 'data:image/png;base64,' + data.data` -/
def mkImgSrc (d : String) : String :=
  "data:image/png;base64," ++ d

/-- The mutable per-stream state of `generate`: the running text
accumulator, the currently held image (its `src`), and the slides
appended so far (caption text, image src). -/
structure StreamSt where
  text : String
  img : Option String
  slides : List (String × String)
deriving DecidableEq, Repr

def initSt : StreamSt := ⟨"", none, []⟩

/-- One part's effect before the pairing check:
`if (part.text) { text += part.text } else if (part.inlineData) { img = ... }`
(in `index.tsx` the else-branch is the equivalent
`try { const data = part.inlineData; if (data) img = ... }`). -/
def applyPart (s : StreamSt) (p : Part) : StreamSt :=
  if partTextTruthy p then
    { s with text := s.text ++ (p.text.getD "") }
  else
    match p.inlineData with
    | some d => { s with img := some (mkImgSrc d) }
    | none => s

/-- The eager pairing check run after every part:
`if (text && img) { await addSlide(text, img); text = ''; img = null; }`. -/
def emitCheck (s : StreamSt) : StreamSt :=
  if s.text ≠ "" then
    match s.img with
    | some i => ⟨"", none, s.slides ++ [(s.text, i)]⟩
    | none => s
  else s

def stepPart (s : StreamSt) (p : Part) : StreamSt :=
  emitCheck (applyPart s p)

def processParts (s : StreamSt) (ps : List Part) : StreamSt :=
  ps.foldl stepPart s

/-- A chunk as iterated by `index.tsx`/`part_000`:
`for (const candidate of chunk.candidates) for (const part of candidate.content.parts ?? [])`.
Each chunk is its list of candidates, each candidate its list of parts. -/
def processStream (chunks : List (List (List Part))) : StreamSt :=
  chunks.foldl (fun s cand => cand.foldl (fun s' parts => processParts s' parts) s) initSt

/-- Slides produced by the stream loop of `part_000`'s `generate`
(lines 101-118): the loop result only, nothing emitted after it. -/
def gen000StreamSlides (chunks : List (List (List Part))) : List (String × String) :=
  (processStream chunks).slides

/-- Slides produced by `index.tsx`'s `generate` (lines 85-116): the loop,
then `if (img) { await addSlide(text, img); ... }` after the stream ends. -/
def indexStreamSlides (chunks : List (List (List Part))) : List (String × String) :=
  let s := processStream chunks
  match s.img with
  | some i => s.slides ++ [(s.text, i)]
  | none => s.slides

/-! ## The instrumented fold for the accumulator invariant

`StreamStP` carries, next to the code's state, the (ghost) list of parts
processed since the last emitted slide. -/
def emits (s : StreamSt) (p : Part) : Bool :=
  (applyPart s p).text ≠ "" && (applyPart s p).img.isSome

structure StreamStP where
  st : StreamSt
  pending : List Part

def initP : StreamStP := ⟨initSt, []⟩

def stepPartP (r : StreamStP) (p : Part) : StreamStP :=
  ⟨stepPart r.st p, if emits r.st p then [] else r.pending ++ [p]⟩

def processPartsP (r : StreamStP) (ps : List Part) : StreamStP :=
  ps.foldl stepPartP r

/-- A part carries text or image data, never both (spec data model of `Part`). -/
def wfPart (p : Part) : Prop := p.text = none ∨ p.inlineData = none

/-- The concatenation of the text fragments of a part list. -/
def concatTexts (ps : List Part) : String :=
  String.join (ps.filterMap (·.text))

/-- The most recent inline-image fragment of a part list. -/
def lastImageFrag (ps : List Part) : Option String :=
  (ps.filterMap (·.inlineData)).getLast?

def pendingInv (r : StreamStP) : Prop :=
  r.st.text = concatTexts r.pending ∧
  r.st.img = (lastImageFrag r.pending).map mkImgSrc

/-! ## A model of JSON values and of the JavaScript `JSON.parse` builtin

`Json.num` keeps the raw numeric lexeme (the claims never inspect numeric
values, only structure).  `jsonParse` trims the surrounding JSON
whitespace and then requires the value parser to consume the whole
remainder, which is `JSON.parse`'s acceptance behaviour. -/
inductive Json where
  | null : Json
  | bool (b : Bool) : Json
  | num (raw : String) : Json
  | str (s : String) : Json
  | arr (elems : List Json) : Json
  | obj (fields : List (String × Json)) : Json

def isDigitCh (c : Char) : Bool := '0' ≤ c && c ≤ '9'

def hexDigitVal (c : Char) : Option Nat :=
  if '0' ≤ c && c ≤ '9' then some (c.toNat - 48)
  else if 'a' ≤ c && c ≤ 'f' then some (c.toNat - 87)
  else if 'A' ≤ c && c ≤ 'F' then some (c.toNat - 55)
  else none

/-- Body of a JSON string after the opening quote: returns the decoded
content and the rest after the closing quote. -/
def parseStrAux : List Char → List Char → Option (String × List Char)
  | acc, '"' :: rest => some (⟨acc.reverse⟩, rest)
  | acc, '\\' :: rest =>
    match rest with
    | '"' :: r => parseStrAux ('"' :: acc) r
    | '\\' :: r => parseStrAux ('\\' :: acc) r
    | '/' :: r => parseStrAux ('/' :: acc) r
    | 'b' :: r => parseStrAux ('\x08' :: acc) r
    | 'f' :: r => parseStrAux ('\x0c' :: acc) r
    | 'n' :: r => parseStrAux ('\n' :: acc) r
    | 'r' :: r => parseStrAux ('\r' :: acc) r
    | 't' :: r => parseStrAux ('\t' :: acc) r
    | 'u' :: h1 :: h2 :: h3 :: h4 :: r =>
      match hexDigitVal h1, hexDigitVal h2, hexDigitVal h3, hexDigitVal h4 with
      | some a, some b, some c, some d =>
        parseStrAux (Char.ofNat (((a * 16 + b) * 16 + c) * 16 + d) :: acc) r
      | _, _, _, _ => none
    | _ => none
  | acc, c :: rest => if c.toNat < 32 then none else parseStrAux (c :: acc) rest
  | _, [] => none

def spanDigits : List Char → (List Char × List Char)
  | [] => ([], [])
  | c :: cs =>
    if isDigitCh c then
      let (d, r) := spanDigits cs
      (c :: d, r)
    else ([], c :: cs)

/-- Optional fraction part `.digits`. -/
def parseFrac (cs : List Char) : Option (List Char × List Char) :=
  match cs with
  | '.' :: r =>
    match spanDigits r with
    | ([], _) => none
    | (ds, r2) => some ('.' :: ds, r2)
  | _ => some ([], cs)

/-- Optional exponent part `[eE][+-]?digits`. -/
def parseExp (cs : List Char) : Option (List Char × List Char) :=
  match cs with
  | c :: r =>
    if c = 'e' || c = 'E' then
      let (sg, r1) : List Char × List Char :=
        match r with
        | '+' :: rr => (['+'], rr)
        | '-' :: rr => (['-'], rr)
        | _ => ([], r)
      match spanDigits r1 with
      | ([], _) => none
      | (ds, r2) => some (c :: (sg ++ ds), r2)
    else some ([], cs)
  | [] => some ([], [])

/-- A JSON number lexeme `-?(0|[1-9][0-9]*)(.[0-9]+)?([eE][+-]?[0-9]+)?`;
returns the raw lexeme. -/
def parseNumber (cs : List Char) : Option (String × List Char) :=
  let (sgn, cs1) : List Char × List Char :=
    match cs with
    | '-' :: r => (['-'], r)
    | _ => ([], cs)
  match cs1 with
  | c :: r =>
    if c = '0' then
      match parseFrac r with
      | some (fr, r2) =>
        match parseExp r2 with
        | some (ex, r3) => some (⟨sgn ++ [c] ++ fr ++ ex⟩, r3)
        | none => none
      | none => none
    else if isDigitCh c then
      let (ds, r1) := spanDigits r
      match parseFrac r1 with
      | some (fr, r2) =>
        match parseExp r2 with
        | some (ex, r3) => some (⟨sgn ++ (c :: ds) ++ fr ++ ex⟩, r3)
        | none => none
      | none => none
    else none
  | [] => none

def dropJsonWsL (cs : List Char) : List Char := cs.dropWhile isJsonWs

mutual

def parseValue : Nat → List Char → Option (Json × List Char)
  | 0, _ => none
  | Nat.succ fuel, cs =>
    match cs with
    | [] => none
    | c :: rest =>
      if c = '{' then parseMembersStart fuel (dropJsonWsL rest)
      else if c = '[' then parseElemsStart fuel (dropJsonWsL rest)
      else if c = '"' then
        match parseStrAux [] rest with
        | some (s, r) => some (Json.str s, r)
        | none => none
      else if c = 't' then
        match rest with
        | 'r' :: 'u' :: 'e' :: r => some (Json.bool true, r)
        | _ => none
      else if c = 'f' then
        match rest with
        | 'a' :: 'l' :: 's' :: 'e' :: r => some (Json.bool false, r)
        | _ => none
      else if c = 'n' then
        match rest with
        | 'u' :: 'l' :: 'l' :: r => some (Json.null, r)
        | _ => none
      else if c = '-' || isDigitCh c then
        match parseNumber (c :: rest) with
        | some (raw, r) => some (Json.num raw, r)
        | none => none
      else none

def parseMembersStart : Nat → List Char → Option (Json × List Char)
  | 0, _ => none
  | Nat.succ fuel, cs =>
    match cs with
    | '}' :: r => some (Json.obj [], r)
    | _ => parseMembers fuel cs []

def parseMembers : Nat → List Char → List (String × Json) → Option (Json × List Char)
  | 0, _, _ => none
  | Nat.succ fuel, cs, acc =>
    match cs with
    | '"' :: rest =>
      match parseStrAux [] rest with
      | some (k, r1) =>
        match dropJsonWsL r1 with
        | ':' :: r2 =>
          match parseValue fuel (dropJsonWsL r2) with
          | some (v, r3) =>
            match dropJsonWsL r3 with
            | ',' :: r4 => parseMembers fuel (dropJsonWsL r4) (acc ++ [(k, v)])
            | '}' :: r4 => some (Json.obj (acc ++ [(k, v)]), r4)
            | _ => none
          | none => none
        | _ => none
      | none => none
    | _ => none

def parseElemsStart : Nat → List Char → Option (Json × List Char)
  | 0, _ => none
  | Nat.succ fuel, cs =>
    match cs with
    | ']' :: r => some (Json.arr [], r)
    | _ => parseElems fuel cs []

def parseElems : Nat → List Char → List Json → Option (Json × List Char)
  | 0, _, _ => none
  | Nat.succ fuel, cs, acc =>
    match parseValue fuel cs with
    | some (v, r1) =>
      match dropJsonWsL r1 with
      | ',' :: r2 => parseElems fuel (dropJsonWsL r2) (acc ++ [v])
      | ']' :: r2 => some (Json.arr (acc ++ [v]), r2)
      | _ => none
    | none => none

end

def trimJsonWsL (cs : List Char) : List Char :=
  List.rdropWhile isJsonWs (cs.dropWhile isJsonWs)

/-- Models `JSON.parse`: tolerate surrounding JSON whitespace, parse one
value, accept only if nothing else remains.  The fuel is generous: every
parser step consumes at least one character, at a fuel cost of at most
three per character. -/
def jsonParse (s : String) : Option Json :=
  let cs := trimJsonWsL s.data
  match parseValue (4 * cs.length + 4) cs with
  | some (v, []) => some v
  | _ => none

/-! ## Script post-processing (`src/unnamed/part_001` lines 98-105)

`jsonText.replace(/^```json\s*/, '').replace(/```$/, '')`: the first
replace strips a leading literal <code>```json</code> plus the following
whitespace run (anchored at the start, first match only), the second
strips a trailing <code>```</code> anchored at the very end of the
string (JavaScript `$` without the `m` flag). -/
def startsList : List Char → List Char → Bool
  | [], _ => true
  | _ :: _, [] => false
  | p :: ps, c :: cs => p = c && startsList ps cs

/-- `.replace(/^```json\s*/, '')`: if the text starts with the literal
seven characters, drop them and the following whitespace run. -/
def stripLeadFence (cs : List Char) : List Char :=
  if startsList "```json".data cs then (cs.drop 7).dropWhile isJsWs else cs

/-- `.replace(/```$/, '')`: if the text ends with three backticks, drop
them (anchored at the very end: no `m` flag). -/
def stripTrailFence (cs : List Char) : List Char :=
  if startsList "```".data.reverse cs.reverse then (cs.reverse.drop 3).reverse else cs

def cleanScript (s : String) : String :=
  ⟨stripTrailFence (stripLeadFence s.data)⟩

/-- The code-fence wrapping of a JSON text that the spec says is accepted. -/
def fenceWrap (j : String) : String := "```json\n" ++ j ++ "\n```"

/-- The characters that can begin a JSON value. -/
def jsonStartCh (c : Char) : Bool :=
  c = '{' || c = '[' || c = '"' || c = 't' || c = 'f' || c = 'n' || c = '-' || isDigitCh c

/-! ## `parseError` (`src/index.tsx` lines 50-60)

```
const regex = /{"error":(.*)}/gm;
const m = regex.exec(error);
try { const e = m[1]; const err = JSON.parse(e); return err.message; }
catch (e) { return error; }
```

`regexCapture` models the regex: the leftmost occurrence of the literal
`{"error":` that is followed, on the same line (JavaScript `.` matches
neither `\n` nor `\r`), by a `}`; the greedy capture extends to the last
such `}`.  `parseErrorModel` models the whole function; `JsValue.undef`
is JavaScript `undefined` (property access on a non-null non-object
value or an object without the field). -/
def isLineTerm (c : Char) : Bool := c = '\n' || c = '\r'

def lineSeg (cs : List Char) : List Char :=
  cs.takeWhile (fun c => !(isLineTerm c))

/-- Everything before the last `}` of the segment, if any. -/
def lastBraceCapture (seg : List Char) : Option (List Char) :=
  match seg.reverse.dropWhile (fun c => !(c = '}')) with
  | '}' :: restRev => some restRev.reverse
  | _ => none

def errPrefixL : List Char := "\x7b\"error\":".data

def regexCaptureAux : List Char → Option String
  | [] => none
  | c :: tail =>
    if startsList errPrefixL (c :: tail) then
      match lastBraceCapture (lineSeg ((c :: tail).drop 9)) with
      | some cap => some ⟨cap⟩
      | none => regexCaptureAux tail
    else regexCaptureAux tail

def regexCapture (s : String) : Option String := regexCaptureAux s.data

inductive JsValue where
  | undef : JsValue
  | val (j : Json) : JsValue

inductive PropAccess where
  | thrown : PropAccess
  | undef : PropAccess
  | value (j : Json) : PropAccess

/-- Field lookup on a parsed object; `JSON.parse` keeps the last
occurrence of a duplicated key. -/
def lookupField (fields : List (String × Json)) (k : String) : Option Json :=
  (fields.reverse.find? (fun f => f.1 = k)).map (·.2)

/-- JavaScript property access `v.k` on a parsed JSON value: throws on
`null`, yields the field on an object that has it, `undefined` otherwise
(primitives are autoboxed, arrays are objects without the field). -/
def getProp (v : Json) (k : String) : PropAccess :=
  match v with
  | .null => .thrown
  | .obj fields =>
    match lookupField fields k with
    | some mv => .value mv
    | none => .undef
  | _ => .undef

def parseErrorModel (s : String) : JsValue :=
  match regexCapture s with
  | none => .val (.str s)
  | some cap =>
    match jsonParse cap with
    | none => .val (.str s)
    | some v =>
      match getProp v "message" with
      | .thrown => .val (.str s)
      | .undef => .undef
      | .value mv => .val mv

/-! ## JavaScript value helpers used by the two-stage pipeline -/
/-- True when a JSON number lexeme denotes zero (its mantissa digits are
all `0`), i.e. the parsed JavaScript number is falsy. -/
def isZeroLexeme (raw : String) : Bool :=
  let cs := match raw.data with
    | '-' :: r => r
    | cs => cs
  (cs.takeWhile (fun c => !(c = 'e' || c = 'E'))).all (fun c => c = '0' || c = '.')

/-- JavaScript truthiness of a parsed JSON value. -/
def jsTruthy : Json → Bool
  | .null => false
  | .bool b => b
  | .num raw => !(isZeroLexeme raw)
  | .str s => s ≠ ""
  | .arr _ => true
  | .obj _ => true

def jsTruthyOpt : Option Json → Bool
  | none => false
  | some v => jsTruthy v

/-- Property read `v.k` yielding a value or `undefined` (`none`). -/
def getField? (v : Json) (k : String) : Option Json :=
  match v with
  | .obj fields => lookupField fields k
  | _ => none

/-- The JavaScript `.length` of a parsed JSON value (arrays and strings
have one; everything else yields `undefined`). -/
def jsLength : Option Json → Option Nat
  | some (.arr l) => some l.length
  | some (.str s) => some s.length
  | _ => none

mutual

/-- JavaScript stringification of a parsed JSON value, as in a template
literal.  (Number lexemes are kept verbatim; the claims never compare
re-formatted numbers.) -/
def jsonToStr : Json → String
  | .null => "null"
  | .bool b => if b then "true" else "false"
  | .num raw => raw
  | .str s => s
  | .arr l => jsonArrToStr l
  | .obj _ => "[object Object]"

/-- `Array.prototype.toString`: comma-joined elements, with `null`
elements rendered as the empty string. -/
def jsonArrToStr : List Json → String
  | [] => ""
  | x :: xs =>
    let hd := match x with
      | Json.null => ""
      | v => jsonToStr v
    match xs with
    | [] => hd
    | _ => hd ++ "," ++ jsonArrToStr xs

end

/-- `${x}` for a possibly-undefined value. -/
def jsTemplate : Option Json → String
  | none => "undefined"
  | some v => jsonToStr v

def jsValueToStr : JsValue → String
  | .undef => "undefined"
  | .val j => jsonToStr j

/-! ## The two-stage pipeline of `src/unnamed/part_001`

`generateScript` (lines 80-111) and `generate` (lines 114-175).  The
environment supplies the text-model response (or its thrown error,
stringified) and, per attempted panel, the image stream: either a thrown
error or the chunk list, each chunk being
`chunk.candidates[0].content?.parts ?? []`. -/
def imageStylePrompt : String :=
  "Photorealistic, cinematic lighting, sharp focus, high detail, 8k resolution, shot on 35mm film, tasteful, artistic."

inductive StreamOutcome where
  | err (msg : String) : StreamOutcome
  | ok (chunks : List (List Part)) : StreamOutcome

structure GenEnv where
  scriptResp : Except String String
  streams : Nat → StreamOutcome

/-- A rendered slide of the two-stage pipeline: `addSlide(panel.text, img)`
receives the raw `panel.text` value. -/
structure Slide001 where
  caption : Option Json
  img : String

def scriptFailMsg (e : String) : String :=
  "<strong>Scriptwriting Failed:</strong> The AI failed to generate a valid story script. This can happen with complex stories. Please try simplifying your prompt. <br><br><em>Error: " ++ e ++ "</em>"

/-- `${new Error("Text model returned no response.")}` -/
def noRespErrStr : String := "Error: Text model returned no response."

/-- Model of the engine's stringified `SyntaxError` thrown by `JSON.parse`. -/
def jsonParseErrStr : String := "SyntaxError: Unexpected token in JSON"

/-- `${new Error("Image model did not return an image for this panel.")}` -/
def noImageErrStr : String := "Error: Image model did not return an image for this panel."

def panelFailMsg (cnt : Nat) (panel : Json) (e : String) : String :=
  "<strong>Panel " ++ toString cnt ++
  " Failed:</strong> Could not generate an image for the text: \"" ++
  jsTemplate (getField? panel "text") ++ "\" <br><br><em>Error: " ++ e ++ "</em>"

/-- `generateScript` as a function of the model response: the parsed
script (`null` on failure) and the error message shown by its catch
branch, if any.  (The prompt construction does not influence the
outcome; the response is supplied by the environment.) -/
def generateScript001 (resp : Except String String) : Option Json × Option String :=
  match resp with
  | .error e => (none, some (scriptFailMsg e))
  | .ok s =>
    if s = "" then (none, some (scriptFailMsg noRespErrStr))
    else
      match jsonParse (cleanScript s) with
      | none => (none, some (scriptFailMsg jsonParseErrStr))
      | some v => (some v, none)

def imagePromptOf (script panel : Json) : String :=
  jsTemplate (getField? panel "text") ++ "\n\n**Character:** " ++
  jsTemplate (getField? script "characterDescription") ++ "\n\n**Style:** " ++
  imageStylePrompt

/-- One part of the per-panel stream loop (lines 151-158):
`if (part.text) { text += part.text } else if (part.inlineData) { img = ... }`. -/
def pfStep (acc : String × Option String) (p : Part) : String × Option String :=
  if partTextTruthy p then (acc.1 ++ p.text.getD "", acc.2)
  else
    match p.inlineData with
    | some d => (acc.1, some (mkImgSrc d))
    | none => acc

/-- The per-panel stream fold of `generate`: text accumulates, the held
image is last-one-wins, nothing is emitted inside the loop. -/
def panelFold (ps : List Part) : String × Option String :=
  ps.foldl pfStep ("", none)

structure LoopRes where
  slides : List Slide001
  err : Option String
  prompts : List String

/-- The panel loop (lines 140-170): one request per panel; a slide iff
the stream ends with an image held, else the catch sets the panel error
and `break`s. -/
def loopPanels (script : Json) (streams : Nat → StreamOutcome) :
    List Json → Nat → LoopRes
  | [], _ => ⟨[], none, []⟩
  | panel :: rest, k =>
    let prompt := imagePromptOf script panel
    match streams k with
    | .err e => ⟨[], some (panelFailMsg (k + 1) panel e), [prompt]⟩
    | .ok chunks =>
      match (panelFold chunks.flatten).2 with
      | some im =>
        let r := loopPanels script streams rest (k + 1)
        ⟨⟨getField? panel "text", im⟩ :: r.slides, r.err, prompt :: r.prompts⟩
      | none => ⟨[], some (panelFailMsg (k + 1) panel noImageErrStr), [prompt]⟩

structure RunOut where
  scriptRequested : Bool
  imagePrompts : List String
  slides : List Slide001
  errorMsg : Option String
  statusMsg : Option String
  inputDisabledAtEnd : Bool
  crashed : Bool

/-- The run output when the guard `!textChat || !imageChat || !story.trim()`
returns before anything happens. -/
def idleRun : RunOut := ⟨false, [], [], none, none, false, false⟩

/-- What `for (const panel of script.panels)` iterates over: arrays and
strings (whose characters become one-character strings) are iterable;
any other value passing the truthiness/length check throws an uncaught
`TypeError`. -/
def iterTarget : Option Json → Option (List Json)
  | some (.arr l) => some l
  | some (.str s) => some (s.data.map (fun c => Json.str ⟨[c]⟩))
  | _ => none

def generate001 (story : String) (env : GenEnv) : RunOut :=
  if jsTrim story = "" then idleRun
  else
    match generateScript001 env.scriptResp with
    | (none, errMsg) => ⟨true, [], [], errMsg, none, false, false⟩
    | (some v, _) =>
      let pv := getField? v "panels"
      if !(jsTruthy v) || !(jsTruthyOpt pv) || (jsLength pv == some 0) then
        ⟨true, [], [], none, none, false, false⟩
      else
        match iterTarget pv with
        | none => ⟨true, [], [], none, some "Writing the script...", true, true⟩
        | some panels =>
          let r := loopPanels v env.streams panels 0
          ⟨true, r.prompts, r.slides, r.err, none, false, false⟩

/-! ## The single-stage `generate` of `index.tsx` and `part_000`

The environment supplies the single streamed response (or its thrown
error, stringified). -/
structure IndexEnv where
  streamResp : Except String (List (List (List Part)))

structure IndexOut where
  requested : Bool
  slides : List (String × String)
  errorMsg : Option String
  inputDisabledAtEnd : Bool

/-- `index.tsx` `generate` (lines 62-124): no guard on the message, the
request is always issued; errors are caught, run through `parseError`
and shown; the input is re-enabled unconditionally at the end. -/
def generateIndex (message : String) (env : IndexEnv) : IndexOut :=
  match env.streamResp with
  | .error e =>
    ⟨true, [], some ("Something went wrong: " ++ jsValueToStr (parseErrorModel e)), false⟩
  | .ok chunks => ⟨true, indexStreamSlides chunks, none, false⟩

/-- `part_000` `generate` (lines 77-127): guard
`if (!chat || !message.trim()) return;`, `parseError` is `e.toString()`. -/
def generate000 (message : String) (env : IndexEnv) : IndexOut :=
  if jsTrim message = "" then ⟨false, [], none, false⟩
  else
    match env.streamResp with
    | .error e => ⟨true, [], some ("Something went wrong: " ++ e), false⟩
    | .ok chunks => ⟨true, gen000StreamSlides chunks, none, false⟩

/-- The image stream of a panel succeeds: it yields chunks (no thrown
error) and an image is held when it completes. -/
def streamHasImg (o : StreamOutcome) : Prop :=
  ∃ chunks, o = StreamOutcome.ok chunks ∧ ((panelFold chunks.flatten).2).isSome

/-- The image stream completes normally but no image was ever held. -/
def streamNoImg (o : StreamOutcome) : Prop :=
  ∃ chunks, o = StreamOutcome.ok chunks ∧ (panelFold chunks.flatten).2 = none

/-- Erase the text of a part, keeping only its image payload. -/
def erasePartText (p : Part) : Part := ⟨none, p.inlineData⟩

def eraseStreamTexts : StreamOutcome → StreamOutcome
  | .err e => .err e
  | .ok chunks => .ok (chunks.map (List.map erasePartText))

def eraseEnvTexts (env : GenEnv) : GenEnv :=
  ⟨env.scriptResp, fun k => eraseStreamTexts (env.streams k)⟩

/-- All parts of all successful streams are well-formed (text or image,
never both). -/
def wfStreams (env : GenEnv) : Prop :=
  ∀ k chunks, env.streams k = StreamOutcome.ok chunks →
    ∀ p ∈ chunks.flatten, wfPart p

/-! ## Theorems -/

theorem isJsWs_of_isJsonWs {c : Char} (h : isJsonWs c = true) : isJsWs c = true := by
  simp only [isJsonWs, Bool.or_eq_true, decide_eq_true_eq] at h
  simp only [isJsWs, Bool.or_eq_true, decide_eq_true_eq]
  tauto

/-! ### Basic facts about the stream fold -/
theorem processParts_append (s : StreamSt) (xs ys : List Part) :
    processParts s (xs ++ ys) = processParts (processParts s xs) ys := by
  simp [processParts, List.foldl_append]

theorem foldl_cand_flatten (a : StreamSt) (cand : List (List Part)) :
    cand.foldl (fun s' parts => processParts s' parts) a = processParts a cand.flatten := by
  induction cand generalizing a with
  | nil => rfl
  | cons d ds ih =>
    simp [List.foldl_cons, ih, processParts_append]

/-- The nested chunk/candidate/part loops process exactly the flattened
part sequence: chunk boundaries are irrelevant to the fold. -/
theorem processStream_eq_join (chunks : List (List (List Part))) :
    processStream chunks = processParts initSt chunks.flatten.flatten := by
  simp only [processStream]
  generalize initSt = a
  induction chunks generalizing a with
  | nil => rfl
  | cons c cs ih =>
    rw [List.foldl_cons, ih, foldl_cand_flatten, List.flatten_cons,
      List.flatten_append, processParts_append]

/-- After any step, the state never simultaneously holds non-empty text
and an image (the pairing check would have fired). -/
theorem emitCheck_not_pending (s : StreamSt) :
    ¬((emitCheck s).text ≠ "" ∧ (emitCheck s).img.isSome) := by
  unfold emitCheck
  by_cases h : s.text = ""
  · simp [h]
  · cases hi : s.img with
    | none => simp [h, hi]
    | some i => simp [h, hi]

theorem processParts_not_pending (ps : List Part) (s : StreamSt)
    (hs : ¬(s.text ≠ "" ∧ s.img.isSome)) :
    ¬((processParts s ps).text ≠ "" ∧ (processParts s ps).img.isSome) := by
  induction ps generalizing s with
  | nil => exact hs
  | cons p ps ih =>
    simp only [processParts, List.foldl_cons]
    exact ih _ (emitCheck_not_pending _)

theorem processStream_not_pending (chunks : List (List (List Part))) :
    ¬((processStream chunks).text ≠ "" ∧ (processStream chunks).img.isSome) := by
  rw [processStream_eq_join]
  exact processParts_not_pending _ _ (by simp [initSt])

theorem stepPart_emit (s : StreamSt) (p : Part) (i : String)
    (ht : (applyPart s p).text ≠ "") (hi : (applyPart s p).img = some i) :
    stepPart s p = ⟨"", none, (applyPart s p).slides ++ [((applyPart s p).text, i)]⟩ := by
  unfold stepPart emitCheck
  simp [ht, hi]

theorem concatTexts_concat (ps : List Part) (p : Part) :
    concatTexts (ps ++ [p]) =
      concatTexts ps ++ (match p.text with | some t => t | none => "") := by
  cases h : p.text with
  | some t => simp [concatTexts, List.filterMap_append, h, String.join, List.foldl_append]
  | none => simp [concatTexts, List.filterMap_append, h, String.join, List.foldl_append]

theorem lastImageFrag_concat (ps : List Part) (p : Part) :
    lastImageFrag (ps ++ [p]) =
      match p.inlineData with
      | some d => some d
      | none => lastImageFrag ps := by
  cases h : p.inlineData with
  | some d => simp [lastImageFrag, List.filterMap_append, h]
  | none => simp [lastImageFrag, List.filterMap_append, h]

theorem stepPart_no_emit (s : StreamSt) (p : Part) (h : emits s p = false) :
    stepPart s p = applyPart s p := by
  unfold stepPart emitCheck
  unfold emits at h
  rcases Bool.and_eq_false_iff.1 h with h1 | h1
  · simp only [ne_eq, decide_eq_false_iff_not, Decidable.not_not] at h1
    simp [h1]
  · cases hi : (applyPart s p).img with
    | none => by_cases ht : (applyPart s p).text = "" <;> simp [ht, hi]
    | some i => rw [hi] at h1; simp at h1

theorem applyPart_of_text (s : StreamSt) (p : Part) (h : partTextTruthy p = true) :
    applyPart s p = { s with text := s.text ++ p.text.getD "" } := by
  simp [applyPart, h]

theorem applyPart_of_img (s : StreamSt) (p : Part) (d : String)
    (h : partTextTruthy p = false) (hd : p.inlineData = some d) :
    applyPart s p = { s with img := some (mkImgSrc d) } := by
  simp [applyPart, h, hd]

theorem applyPart_of_neither (s : StreamSt) (p : Part)
    (h : partTextTruthy p = false) (hd : p.inlineData = none) :
    applyPart s p = s := by
  simp [applyPart, h, hd]

theorem stepPartP_inv (r : StreamStP) (p : Part) (hp : wfPart p)
    (h : pendingInv r) : pendingInv (stepPartP r p) := by
  obtain ⟨htext, himg⟩ := h
  unfold pendingInv stepPartP
  cases he : emits r.st p with
  | true =>
    have ht : (applyPart r.st p).text ≠ "" := by
      unfold emits at he
      exact of_decide_eq_true (Bool.and_eq_true_iff.1 he).1
    obtain ⟨i, hi⟩ : ∃ i, (applyPart r.st p).img = some i := by
      unfold emits at he
      exact Option.isSome_iff_exists.1 (Bool.and_eq_true_iff.1 he).2
    rw [stepPart_emit r.st p i ht hi]
    exact ⟨rfl, rfl⟩
  | false =>
    rw [stepPart_no_emit r.st p he]
    simp only [Bool.false_eq_true, if_false]
    by_cases htr : partTextTruthy p = true
    · obtain ⟨t, htx, htne⟩ : ∃ t, p.text = some t ∧ t ≠ "" := by
        unfold partTextTruthy at htr
        cases hx : p.text with
        | some t => exact ⟨t, rfl, by rw [hx] at htr; exact of_decide_eq_true htr⟩
        | none => rw [hx] at htr; simp at htr
      have hno : p.inlineData = none := by
        rcases hp with h1 | h1
        · rw [h1] at htx; cases htx
        · exact h1
      rw [applyPart_of_text _ _ htr]
      constructor
      · rw [concatTexts_concat, htx, htext]
        rfl
      · rw [lastImageFrag_concat, hno, himg]
    · rw [Bool.not_eq_true] at htr
      have hmt : (match p.text with | some t => t | none => "") = "" := by
        cases hx : p.text with
        | some t =>
          unfold partTextTruthy at htr
          rw [hx] at htr
          simpa using htr
        | none => rfl
      cases hd : p.inlineData with
      | some d =>
        have hno : p.text = none := by
          rcases hp with h1 | h1
          · exact h1
          · rw [h1] at hd; cases hd
        rw [applyPart_of_img _ _ d htr hd]
        constructor
        · rw [concatTexts_concat, hno, htext]
          simp
        · rw [lastImageFrag_concat, hd]
          rfl
      | none =>
        rw [applyPart_of_neither _ _ htr hd]
        constructor
        · rw [concatTexts_concat, hmt, htext]
          simp
        · rw [lastImageFrag_concat, hd, himg]

theorem processPartsP_inv (ps : List Part) (r : StreamStP)
    (hps : ∀ p ∈ ps, wfPart p) (h : pendingInv r) :
    pendingInv (processPartsP r ps) := by
  induction ps generalizing r with
  | nil => exact h
  | cons p ps ih =>
    simp only [processPartsP, List.foldl_cons]
    exact ih _ (fun q hq => hps q (List.mem_cons_of_mem _ hq))
      (stepPartP_inv r p (hps p (List.mem_cons_self _ _)) h)

theorem processPartsP_st (ps : List Part) (r : StreamStP) :
    (processPartsP r ps).st = processParts r.st ps := by
  induction ps generalizing r with
  | nil => rfl
  | cons p ps ih =>
    simp only [processPartsP, processParts, List.foldl_cons] at *
    exact ih _

theorem processPartsP_pending_suffix (ps : List Part) (r : StreamStP) :
    ∃ pre, r.pending ++ ps = pre ++ (processPartsP r ps).pending := by
  induction ps generalizing r with
  | nil => exact ⟨[], by simp [processPartsP]⟩
  | cons p ps ih =>
    have hstep : processPartsP r (p :: ps) = processPartsP (stepPartP r p) ps := rfl
    rw [hstep]
    obtain ⟨pre1, hpre1⟩ := ih (stepPartP r p)
    cases he : emits r.st p with
    | true =>
      have hpd : (stepPartP r p).pending = [] := by simp [stepPartP, he]
      rw [hpd, List.nil_append] at hpre1
      refine ⟨(r.pending ++ [p]) ++ pre1, ?_⟩
      conv_lhs => rw [hpre1]
      simp
    | false =>
      have hpd : (stepPartP r p).pending = r.pending ++ [p] := by simp [stepPartP, he]
      rw [hpd] at hpre1
      exact ⟨pre1, by rw [← hpre1]; simp⟩

/-! ## Claims about the stream demultiplexer / slide assembler -/
/-- C1: The slide-pairing check fires after every single part, not only at
chunk boundaries: (i) the nested chunk/candidate loops are equivalent to a
flat fold over all parts in arrival order; (ii) whenever, right after a
part is applied, the text accumulator is non-empty and an image is held,
exactly one slide is appended from that text and image and both buffers
are reset; (iii) a single chunk with parts
`[text:"A", image:I1, text:"B", image:I2]` yields exactly the two slides
`("A", I1)` and `("B", I2)`, in that order. -/
theorem claim_C1 :
    (∀ chunks : List (List (List Part)),
        processStream chunks = processParts initSt chunks.flatten.flatten) ∧
    (∀ (s : StreamSt) (p : Part) (i : String),
        (applyPart s p).text ≠ "" → (applyPart s p).img = some i →
        stepPart s p =
          ⟨"", none, (applyPart s p).slides ++ [((applyPart s p).text, i)]⟩) ∧
    (processStream [[[⟨some "A", none⟩, ⟨none, some "I1"⟩,
        ⟨some "B", none⟩, ⟨none, some "I2"⟩]]]).slides =
      [("A", mkImgSrc "I1"), ("B", mkImgSrc "I2")] := by
  refine ⟨processStream_eq_join, stepPart_emit, ?_⟩
  decide

/-- Witness for C1: the pairing step applied at a concrete state and part. -/
theorem claim_C1_witness :
    stepPart ⟨"X", none, []⟩ ⟨none, some "D"⟩ = ⟨"", none, [("X", mkImgSrc "D")]⟩ := by
  have h := claim_C1.2.1 ⟨"X", none, []⟩ ⟨none, some "D"⟩ (mkImgSrc "D")
    (by decide) (by decide)
  simpa using h

/-- C4 fails on `src/index.tsx`: after the stream, `generate` runs
`if (img) { await addSlide(text, img); ... }` (lines 112-116), so a
leftover held image is emitted as one extra slide.  Concretely, a stream
consisting of a single image part produces one slide in `index.tsx`,
although the eager pairing check emitted none. -/
theorem claim_C4_counterexample :
    indexStreamSlides [[[⟨none, some "I"⟩]]] = [("", mkImgSrc "I")] ∧
    (processStream [[[⟨none, some "I"⟩]]]).slides = [] ∧
    indexStreamSlides [[[⟨none, some "I"⟩]]] ≠
      (processStream [[[⟨none, some "I"⟩]]]).slides := by
  refine ⟨by decide, by decide, by decide⟩

/-- C4 (amended): leftover text with no pairing partner is discarded in
every variant, and `part_000`'s stream loop discards any leftover image as
well; but in `index.tsx` a leftover held image is emitted as one
additional slide, paired with the (necessarily empty) text accumulator.
(i) With no leftover image, `index.tsx` emits nothing extra; (ii) with a
leftover image the accumulator is provably empty and exactly one extra
slide `("", img)` is appended; (iii) `part_000` emits exactly the eager
check's slides. -/
theorem claim_C4 :
    (∀ chunks : List (List (List Part)), (processStream chunks).img = none →
        indexStreamSlides chunks = (processStream chunks).slides) ∧
    (∀ (chunks : List (List (List Part))) (i : String),
        (processStream chunks).img = some i →
        (processStream chunks).text = "" ∧
        indexStreamSlides chunks = (processStream chunks).slides ++ [("", i)]) ∧
    (∀ chunks : List (List (List Part)),
        gen000StreamSlides chunks = (processStream chunks).slides) := by
  refine ⟨?_, ?_, fun _ => rfl⟩
  · intro chunks h
    simp [indexStreamSlides, h]
  · intro chunks i h
    have hne := processStream_not_pending chunks
    have htext : (processStream chunks).text = "" := by
      by_contra hx
      exact hne ⟨hx, by rw [h]; rfl⟩
    refine ⟨htext, ?_⟩
    simp [indexStreamSlides, h, htext]

/-- Witness for C4 (amended): a stream `[text, image, image]` in
`index.tsx` yields the paired slide plus one extra empty-text slide. -/
theorem claim_C4_witness :
    (processStream [[[⟨some "T", none⟩, ⟨none, some "I1"⟩, ⟨none, some "I2"⟩]]]).text = "" ∧
    indexStreamSlides [[[⟨some "T", none⟩, ⟨none, some "I1"⟩, ⟨none, some "I2"⟩]]] =
      (processStream [[[⟨some "T", none⟩, ⟨none, some "I1"⟩, ⟨none, some "I2"⟩]]]).slides
        ++ [("", mkImgSrc "I2")] :=
  claim_C4.2.1 [[[⟨some "T", none⟩, ⟨none, some "I1"⟩, ⟨none, some "I2"⟩]]]
    (mkImgSrc "I2") (by decide)

/-- C7: within one stream, text parts append to the running accumulator
and image parts replace the held image (last-one-wins): after processing
any prefix of (well-formed) parts, the run state of the code equals the
instrumented fold's state, the parts since the last emitted slide are a
suffix of the prefix processed so far, the accumulator is the
concatenation of their text fragments and the held image is their most
recent image fragment. -/
theorem claim_C7 (ps : List Part) (hwf : ∀ p ∈ ps, wfPart p) :
    (processPartsP initP ps).st = processParts initSt ps ∧
    (∃ pre, ps = pre ++ (processPartsP initP ps).pending) ∧
    (processPartsP initP ps).st.text = concatTexts (processPartsP initP ps).pending ∧
    (processPartsP initP ps).st.img =
      ((lastImageFrag (processPartsP initP ps).pending).map mkImgSrc) := by
  have hinv := processPartsP_inv ps initP hwf ⟨rfl, rfl⟩
  refine ⟨processPartsP_st ps initP, ?_, hinv.1, hinv.2⟩
  have := processPartsP_pending_suffix ps initP
  simpa [initP] using this

theorem parseValue_nil (fuel : Nat) : parseValue fuel [] = none := by
  cases fuel <;> rfl

theorem parseValue_bad_head (fuel : Nat) (c : Char) (rest : List Char)
    (h : jsonStartCh c = false) : parseValue fuel (c :: rest) = none := by
  cases fuel with
  | zero => rfl
  | succ f =>
    simp only [jsonStartCh, Bool.or_eq_false_iff, decide_eq_false_iff_not] at h
    obtain ⟨⟨⟨⟨⟨⟨⟨h1, h2⟩, h3⟩, h4⟩, h5⟩, h6⟩, h7⟩, h8⟩ := h
    simp [parseValue, h1, h2, h3, h4, h5, h6, h7, h8]

theorem jsOnlyWs_not_start (c : Char) (hw : isJsWs c = true) (hj : isJsonWs c = false) :
    jsonStartCh c = false := by
  simp only [isJsWs, Bool.or_eq_true, decide_eq_true_eq] at hw
  simp only [isJsonWs, Bool.or_eq_false_iff, decide_eq_false_iff_not] at hj
  obtain ⟨⟨⟨j1, j2⟩, j3⟩, j4⟩ := hj
  rcases hw with ((((((h | h) | h) | h) | h) | h) | h) | h
  · exact absurd h j1
  · exact absurd h j2
  · exact absurd h j3
  · exact absurd h j4
  · subst h; decide
  · subst h; decide
  · subst h; decide
  · subst h; decide

theorem dropWhile_head_neg {p : Char → Bool} :
    ∀ {cs : List Char} {c : Char} {rest : List Char},
      List.dropWhile p cs = c :: rest → p c = false := by
  intro cs
  induction cs with
  | nil => intro c rest h; cases h
  | cons a l ih =>
    intro c rest h
    by_cases hp : p a
    · rw [List.dropWhile_cons_of_pos hp] at h
      exact ih h
    · rw [List.dropWhile_cons_of_neg hp] at h
      cases h
      simpa using hp

theorem dropWhile_of_sub {p q : Char → Bool} (hpq : ∀ c, p c = true → q c = true) :
    ∀ cs : List Char, List.dropWhile q cs = List.dropWhile q (List.dropWhile p cs) := by
  intro cs
  induction cs with
  | nil => rfl
  | cons a l ih =>
    by_cases hp : p a = true
    · rw [List.dropWhile_cons_of_pos (hpq a hp), List.dropWhile_cons_of_pos hp]
      exact ih
    · rw [show List.dropWhile p (a :: l) = a :: l from
        List.dropWhile_cons_of_neg (by simpa using hp)]

theorem rdropWhile_cons_of_neg {p : Char → Bool} {c : Char} {t : List Char}
    (h : p c = false) : List.rdropWhile p (c :: t) = c :: List.rdropWhile p t := by
  unfold List.rdropWhile
  rw [List.reverse_cons, List.dropWhile_append]
  by_cases he : (t.reverse.dropWhile p).isEmpty
  · rw [if_pos he]
    have hnil : t.reverse.dropWhile p = [] := by simpa [List.isEmpty_iff] using he
    simp [List.dropWhile_cons, h, hnil]
  · rw [if_neg he]
    simp

theorem jsonParse_some_inv {s : String} {v : Json} (h : jsonParse s = some v) :
    parseValue (4 * (trimJsonWsL s.data).length + 4) (trimJsonWsL s.data) = some (v, []) := by
  simp only [jsonParse] at h
  rcases hp : parseValue (4 * (trimJsonWsL s.data).length + 4) (trimJsonWsL s.data) with
    _ | ⟨v', rest⟩
  · rw [hp] at h; cases h
  · rw [hp] at h
    cases rest with
    | nil => cases h; rfl
    | cons a l => cases h

theorem startsList_fence_json (X : List Char) :
    startsList "```json".data ('`' :: '`' :: '`' :: 'j' :: 's' :: 'o' :: 'n' :: '\n' :: X) =
      true := rfl

theorem fenceWrap_data (j : String) :
    (fenceWrap j).data =
      '`' :: '`' :: '`' :: 'j' :: 's' :: 'o' :: 'n' :: '\n' ::
        (j.data ++ ('\n' :: '`' :: '`' :: '`' :: [])) := by
  show (("```json\n" ++ j) ++ "\n```").data = _
  rw [String.data_append, String.data_append, List.append_assoc]
  rfl

theorem stripLeadFence_fence (X : List Char) :
    stripLeadFence ('`' :: '`' :: '`' :: 'j' :: 's' :: 'o' :: 'n' :: '\n' :: X) =
      X.dropWhile isJsWs := by
  unfold stripLeadFence
  rw [if_pos (startsList_fence_json X)]
  show (('\n' :: X).dropWhile isJsWs) = X.dropWhile isJsWs
  exact List.dropWhile_cons_of_pos (by decide)

theorem stripTrailFence_concat (Y : List Char) :
    stripTrailFence (Y ++ ('\n' :: '`' :: '`' :: '`' :: [])) = Y ++ ['\n'] := by
  unfold stripTrailFence
  have hrev : (Y ++ ('\n' :: '`' :: '`' :: '`' :: [])).reverse =
      '`' :: '`' :: '`' :: '\n' :: Y.reverse := by
    simp
  have hc : startsList "```".data.reverse ('`' :: '`' :: '`' :: '\n' :: Y.reverse) = true := rfl
  rw [hrev, if_pos hc]
  simp

theorem cleanScript_fenceWrap_data (j : String) :
    (cleanScript (fenceWrap j)).data =
      if (j.data.dropWhile isJsWs).isEmpty then []
      else j.data.dropWhile isJsWs ++ ['\n'] := by
  show stripTrailFence (stripLeadFence (fenceWrap j).data) = _
  rw [fenceWrap_data, stripLeadFence_fence, List.dropWhile_append]
  by_cases he : (j.data.dropWhile isJsWs).isEmpty
  · rw [if_pos he, if_pos he]
    rfl
  · rw [if_neg he, if_neg he]
    exact stripTrailFence_concat _

theorem jsonParse_none_of_trim_nil {s : String}
    (h0 : List.dropWhile isJsonWs s.data = []) : jsonParse s = none := by
  have htrim : trimJsonWsL s.data = [] := by
    unfold trimJsonWsL
    rw [h0]
    rfl
  simp only [jsonParse, htrim, parseValue_nil]

theorem jsonParse_none_of_jsOnly_head {s : String} {d : Char} {rr : List Char}
    (hR : List.dropWhile isJsonWs s.data = d :: rr) (hw : isJsWs d = true) :
    jsonParse s = none := by
  have hj : isJsonWs d = false := dropWhile_head_neg hR
  have hbad := jsOnlyWs_not_start d hw hj
  have htrim : trimJsonWsL s.data = d :: List.rdropWhile isJsonWs rr := by
    unfold trimJsonWsL
    rw [hR]
    exact rdropWhile_cons_of_neg hj
  simp only [jsonParse, htrim, parseValue_bad_head _ _ _ hbad]

theorem trim_clean_fence {j : String} {v : Json} (h : jsonParse j = some v) :
    trimJsonWsL ((cleanScript (fenceWrap j)).data) = trimJsonWsL j.data := by
  rw [cleanScript_fenceWrap_data]
  have hD : j.data.dropWhile isJsWs =
      List.dropWhile isJsWs (List.dropWhile isJsonWs j.data) :=
    dropWhile_of_sub (fun c => isJsWs_of_isJsonWs) j.data
  rcases hR : List.dropWhile isJsonWs j.data with _ | ⟨d, rr⟩
  · rw [jsonParse_none_of_trim_nil hR] at h
    cases h
  · have hdj : isJsonWs d = false := dropWhile_head_neg hR
    by_cases hw : isJsWs d = true
    · rw [jsonParse_none_of_jsOnly_head hR hw] at h
      cases h
    · have hwd : isJsWs d = false := by simpa using hw
      have hDR : j.data.dropWhile isJsWs = d :: rr := by
        rw [hD, hR, List.dropWhile_cons_of_neg (by simp [hwd])]
      rw [hDR, if_neg (by simp)]
      unfold trimJsonWsL
      rw [hR]
      have hstep : List.dropWhile isJsonWs ((d :: rr) ++ ['\n']) = (d :: rr) ++ ['\n'] := by
        rw [show (d :: rr) ++ ['\n'] = d :: (rr ++ ['\n']) from rfl]
        exact List.dropWhile_cons_of_neg (by simp [hdj])
      rw [show (d :: rr) ++ ['\n'] = (d :: rr) ++ ['\n'] from rfl, hstep]
      exact List.rdropWhile_concat_pos _ _ '\n' (by decide)

/-- C5: for every JSON object text, cleaning the code-fence-wrapped form
(```json ... ```) with `generateScript`'s two `replace` calls yields a
text that parses to exactly the same `ComicScript` value as the unwrapped
text: code-fenced model output is accepted. -/
theorem claim_C5 (j : String) (fs : List (String × Json))
    (h : jsonParse j = some (Json.obj fs)) :
    jsonParse (cleanScript (fenceWrap j)) = some (Json.obj fs) := by
  have ht := trim_clean_fence h
  simp only [jsonParse] at h ⊢
  rw [ht]
  exact h

/-- Witness for C5 at the concrete object text `{"a": 1}`. -/
theorem claim_C5_witness :
    jsonParse (cleanScript (fenceWrap "\x7b\"a\": 1\x7d")) =
      some (Json.obj [("a", Json.num "1")]) :=
  claim_C5 "\x7b\"a\": 1\x7d" [("a", Json.num "1")] rfl

/-- C10 fails on the code: for an input whose matched payload parses as
JSON but has no `message` field (for example `{"error":{}}`), `parseError`
returns `undefined` — no exception is raised, so the catch branch that
would return the original input is never reached. -/
theorem claim_C10_counterexample :
    parseErrorModel "\x7b\"error\":\x7b\x7d\x7d" = JsValue.undef ∧
    JsValue.undef ≠ JsValue.val (Json.str "\x7b\"error\":\x7b\x7d\x7d") :=
  ⟨rfl, fun h => JsValue.noConfusion h⟩

/-- C10 (amended): `parseError` is total — every input yields a value,
never an uncaught exception.  If the regex does not match, the payload
does not parse, or the payload parses to `null` (so `.message` throws),
the internal exception is caught and the original input is returned.  If
the payload parses to an object with a `message` field, that field's
value is returned.  But if the payload parses to an object without a
`message` field, or to a non-null primitive or array, the function
returns `undefined`, not the original input. -/
theorem claim_C10 (s : String) :
    (regexCapture s = none → parseErrorModel s = JsValue.val (Json.str s)) ∧
    (∀ cap, regexCapture s = some cap → jsonParse cap = none →
        parseErrorModel s = JsValue.val (Json.str s)) ∧
    (∀ cap, regexCapture s = some cap → jsonParse cap = some Json.null →
        parseErrorModel s = JsValue.val (Json.str s)) ∧
    (∀ cap fs mv, regexCapture s = some cap → jsonParse cap = some (Json.obj fs) →
        lookupField fs "message" = some mv → parseErrorModel s = JsValue.val mv) ∧
    (∀ cap v, regexCapture s = some cap → jsonParse cap = some v →
        getProp v "message" = PropAccess.undef → parseErrorModel s = JsValue.undef) := by
  refine ⟨?_, ?_, ?_, ?_, ?_⟩
  · intro h
    simp [parseErrorModel, h]
  · intro cap h hj
    simp [parseErrorModel, h, hj]
  · intro cap h hj
    simp [parseErrorModel, h, hj, getProp]
  · intro cap fs mv h hj hl
    simp [parseErrorModel, h, hj, getProp, hl]
  · intro cap v h hj hg
    simp [parseErrorModel, h, hj, hg]

/-- Witness for C10: the message field is extracted on a matching input. -/
theorem claim_C10_witness :
    parseErrorModel "\x7b\"error\":\x7b\"message\":\"boom\"\x7d\x7d" =
      JsValue.val (Json.str "boom") :=
  (claim_C10 "\x7b\"error\":\x7b\"message\":\"boom\"\x7d\x7d").2.2.2.1
    "\x7b\"message\":\"boom\"\x7d" [("message", Json.str "boom")] (Json.str "boom")
    rfl rfl rfl

/-- When the guard passes and the script parses to a truthy value with a
non-empty `panels` array, `generate` runs the panel loop and reports its
slides, error and prompts. -/
theorem generate001_loop (story : String) (env : GenEnv) (s : String) (v : Json)
    (panels : List Json) (hg : jsTrim story ≠ "") (hr : env.scriptResp = .ok s)
    (hs : s ≠ "") (hparse : jsonParse (cleanScript s) = some v)
    (htr : jsTruthy v = true) (hpan : getField? v "panels" = some (Json.arr panels))
    (hne : panels ≠ []) :
    generate001 story env =
      ⟨true, (loopPanels v env.streams panels 0).prompts,
        (loopPanels v env.streams panels 0).slides,
        (loopPanels v env.streams panels 0).err, none, false, false⟩ := by
  rcases panels with _ | ⟨p, rest⟩
  · exact absurd rfl hne
  · have hb1 : (!jsTruthy v) = false := by rw [htr]; rfl
    have hb2 : (!jsTruthyOpt (some (Json.arr (p :: rest)))) = false := rfl
    have hb3 : (jsLength (some (Json.arr (p :: rest))) == some 0) = false := rfl
    simp only [generate001, if_neg hg, generateScript001, hr, if_neg hs, hparse,
      hb1, hb2, hb3, Bool.false_or, Bool.or_false, Bool.false_eq_true, if_false,
      hpan, iterTarget]

/-- C6 fails on `src/index.tsx`: its `generate` has no guard on the
message (lines 62-80), so an empty story still issues the model request. -/
theorem claim_C6_counterexample :
    (generateIndex "" ⟨Except.ok []⟩).requested = true := rfl

/-- C6 (amended): in `part_000` and in the two-stage pipeline
(`part_001`), an empty or whitespace-only story returns before any model
request with the run state unchanged; but `index.tsx`'s `generate` always
issues the request, whatever the message. -/
theorem claim_C6 :
    (∀ (story : String) (env : IndexEnv), jsTrim story = "" →
        generate000 story env = ⟨false, [], none, false⟩) ∧
    (∀ (story : String) (env : GenEnv), jsTrim story = "" →
        generate001 story env = idleRun) ∧
    (∀ (message : String) (env : IndexEnv), (generateIndex message env).requested = true) := by
  refine ⟨?_, ?_, ?_⟩
  · intro story env h
    simp [generate000, h]
  · intro story env h
    simp [generate001, h]
  · intro message env
    cases henv : env.streamResp <;> simp [generateIndex, henv]

/-- Witness for C6 at the whitespace story `"  "`. -/
theorem claim_C6_witness :
    generate001 "  " ⟨Except.ok "x", fun _ => StreamOutcome.ok []⟩ = idleRun :=
  claim_C6.2.1 "  " ⟨Except.ok "x", fun _ => StreamOutcome.ok []⟩ (by decide)

/-- C3 fails on the code: when the script response parses but has an
empty `panels` list, `generate` returns silently — status cleared, zero
panels, but no user-visible error message is shown (`setError` is only
called from `generateScript`'s catch, which did not fire). -/
theorem claim_C3_counterexample :
    (generate001 "story"
        ⟨Except.ok "\x7b\"characterDescription\":\"x\",\"panels\":[]\x7d",
          fun _ => StreamOutcome.ok []⟩).errorMsg = none ∧
    (generate001 "story"
        ⟨Except.ok "\x7b\"characterDescription\":\"x\",\"panels\":[]\x7d",
          fun _ => StreamOutcome.ok []⟩).slides = [] ∧
    (generate001 "story"
        ⟨Except.ok "\x7b\"characterDescription\":\"x\",\"panels\":[]\x7d",
          fun _ => StreamOutcome.ok []⟩).imagePrompts = [] :=
  ⟨rfl, rfl, rfl⟩

/-- C3 (amended): script generation terminates the run before any panel,
with zero panels rendered, exactly when the model errors or returns empty
text, the cleaned text is not valid JSON, or the parsed value is falsy or
lacks a non-empty `panels`; a user-visible message is shown in the first
three cases (the catch branch of `generateScript`), but the case of a
missing or empty `panels` returns silently with no message; when a
non-empty `panels` array is present, at least one panel request is
issued. -/
theorem claim_C3 :
    (∀ (story : String) (env : GenEnv) (e : String), jsTrim story ≠ "" →
        env.scriptResp = .error e →
        generate001 story env = ⟨true, [], [], some (scriptFailMsg e), none, false, false⟩) ∧
    (∀ (story : String) (env : GenEnv), jsTrim story ≠ "" →
        env.scriptResp = .ok "" →
        generate001 story env =
          ⟨true, [], [], some (scriptFailMsg noRespErrStr), none, false, false⟩) ∧
    (∀ (story : String) (env : GenEnv) (s : String), jsTrim story ≠ "" →
        env.scriptResp = .ok s → s ≠ "" → jsonParse (cleanScript s) = none →
        generate001 story env =
          ⟨true, [], [], some (scriptFailMsg jsonParseErrStr), none, false, false⟩) ∧
    (∀ (story : String) (env : GenEnv) (s : String) (v : Json), jsTrim story ≠ "" →
        env.scriptResp = .ok s → s ≠ "" → jsonParse (cleanScript s) = some v →
        (!(jsTruthy v) || !(jsTruthyOpt (getField? v "panels")) ||
          (jsLength (getField? v "panels") == some 0)) = true →
        generate001 story env = ⟨true, [], [], none, none, false, false⟩) ∧
    (∀ (story : String) (env : GenEnv) (s : String) (v : Json) (l : List Json),
        jsTrim story ≠ "" → env.scriptResp = .ok s → s ≠ "" →
        jsonParse (cleanScript s) = some v → jsTruthy v = true →
        getField? v "panels" = some (Json.arr l) → l ≠ [] →
        (generate001 story env).imagePrompts ≠ []) := by
  refine ⟨?_, ?_, ?_, ?_, ?_⟩
  · intro story env e hg hr
    simp [generate001, hg, generateScript001, hr]
  · intro story env hg hr
    simp [generate001, hg, generateScript001, hr]
  · intro story env s hg hr hs hparse
    simp [generate001, hg, generateScript001, hr, hs, hparse]
  · intro story env s v hg hr hs hparse hcond
    simp [generate001, hg, generateScript001, hr, hs, hparse, hcond]
  · intro story env s v l hg hr hs hparse htr hpan hne
    rw [generate001_loop story env s v l hg hr hs hparse htr hpan hne]
    rcases l with _ | ⟨p, rest⟩
    · exact absurd rfl hne
    · cases hstr : env.streams 0 with
      | err e => simp [loopPanels, hstr]
      | ok chunks =>
        cases himg : (panelFold chunks.flatten).2 with
        | none => simp [loopPanels, hstr, himg]
        | some im => simp [loopPanels, hstr, himg]

/-- Witness for C3: a malformed (non-JSON) script response shows the
scriptwriting-failure message and renders zero panels. -/
theorem claim_C3_witness :
    generate001 "story" ⟨Except.ok "not json", fun _ => StreamOutcome.ok []⟩ =
      ⟨true, [], [], some (scriptFailMsg jsonParseErrStr), none, false, false⟩ :=
  claim_C3.2.2.1 "story" ⟨Except.ok "not json", fun _ => StreamOutcome.ok []⟩
    "not json" (by decide) rfl (by decide) rfl

theorem loopPanels_fail (script : Json) (streams : Nat → StreamOutcome) :
    ∀ (i : Nat) (panels : List Json) (k : Nat),
      (∀ j, j < i → streamHasImg (streams (k + j))) →
      streamNoImg (streams (k + i)) →
      ∀ hlen : i < panels.length,
      (loopPanels script streams panels k).slides.length = i ∧
      (loopPanels script streams panels k).prompts.length = i + 1 ∧
      (loopPanels script streams panels k).err =
        some (panelFailMsg (k + i + 1) (panels.get ⟨i, hlen⟩) noImageErrStr) ∧
      (loopPanels script streams panels k).slides.map (·.caption) =
        (panels.take i).map (fun p => getField? p "text") := by
  intro i
  induction i with
  | zero =>
    intro panels k _ hfail hlen
    rcases panels with _ | ⟨p, rest⟩
    · cases hlen
    · obtain ⟨chunks, hok, hnone⟩ := hfail
      rw [Nat.add_zero] at hok
      simp [loopPanels, hok, hnone]
  | succ i ih =>
    intro panels k hbefore hfail hlen
    rcases panels with _ | ⟨p, rest⟩
    · cases hlen
    · obtain ⟨chunks, hok, hsome⟩ := hbefore 0 (Nat.succ_pos i)
      rw [Nat.add_zero] at hok
      obtain ⟨im, him⟩ := Option.isSome_iff_exists.1 hsome
      have hlen' : i < rest.length := Nat.lt_of_succ_lt_succ hlen
      have hb' : ∀ j, j < i → streamHasImg (streams (k + 1 + j)) := by
        intro j hj
        have := hbefore (j + 1) (Nat.succ_lt_succ hj)
        rwa [show k + (j + 1) = k + 1 + j by omega] at this
      have hf' : streamNoImg (streams (k + 1 + i)) := by
        rwa [show k + 1 + i = k + (i + 1) by omega]
      obtain ⟨hl, hp, he, hc⟩ := ih rest (k + 1) hb' hf' hlen'
      refine ⟨?_, ?_, ?_, ?_⟩
      · simp [loopPanels, hok, him, hl]
      · simp [loopPanels, hok, him, hp]
      · rw [show loopPanels script streams (p :: rest) k =
          ⟨⟨getField? p "text", im⟩ :: (loopPanels script streams rest (k + 1)).slides,
            (loopPanels script streams rest (k + 1)).err,
            imagePromptOf script p :: (loopPanels script streams rest (k + 1)).prompts⟩
          from by simp [loopPanels, hok, him]]
        rw [he]
        have : k + 1 + i + 1 = k + (i + 1) + 1 := by omega
        rw [this]
        rfl
      · rw [show loopPanels script streams (p :: rest) k =
          ⟨⟨getField? p "text", im⟩ :: (loopPanels script streams rest (k + 1)).slides,
            (loopPanels script streams rest (k + 1)).err,
            imagePromptOf script p :: (loopPanels script streams rest (k + 1)).prompts⟩
          from by simp [loopPanels, hok, him]]
        simp only [List.map_cons, hc, List.take_succ_cons]

/-- C2: in the two-stage pipeline, if the stream for panel `i` (0-based;
panels before it all succeed) completes with no image ever held, then:
exactly `i` slides remain rendered (one per panel before `i`, with the
script's panel texts as captions), exactly `i + 1` image requests were
issued (none for any panel after `i`), and the run's error message is
the panel-failure message, which spells out the panel's 1-based index
and its source text. -/
theorem claim_C2 (story : String) (env : GenEnv) (s : String) (v : Json)
    (panels : List Json) (i : Nat)
    (hg : jsTrim story ≠ "") (hr : env.scriptResp = .ok s) (hs : s ≠ "")
    (hparse : jsonParse (cleanScript s) = some v) (htr : jsTruthy v = true)
    (hpan : getField? v "panels" = some (Json.arr panels))
    (hlen : i < panels.length)
    (hbefore : ∀ j, j < i → streamHasImg (env.streams j))
    (hfail : streamNoImg (env.streams i)) :
    (generate001 story env).slides.length = i ∧
    (generate001 story env).imagePrompts.length = i + 1 ∧
    (generate001 story env).errorMsg =
      some (panelFailMsg (i + 1) (panels.get ⟨i, hlen⟩) noImageErrStr) ∧
    (∀ (k : Nat) (p : Json) (e : String), panelFailMsg k p e =
      "<strong>Panel " ++ toString k ++
      " Failed:</strong> Could not generate an image for the text: \"" ++
      jsTemplate (getField? p "text") ++ "\" <br><br><em>Error: " ++ e ++ "</em>") ∧
    (generate001 story env).slides.map (·.caption) =
      (panels.take i).map (fun p => getField? p "text") := by
  have hne : panels ≠ [] := by
    intro hnil
    rw [hnil] at hlen
    cases hlen
  rw [generate001_loop story env s v panels hg hr hs hparse htr hpan hne]
  have hb0 : ∀ j, j < i → streamHasImg (env.streams (0 + j)) := by
    intro j hj
    rw [Nat.zero_add]
    exact hbefore j hj
  have hf0 : streamNoImg (env.streams (0 + i)) := by
    rw [Nat.zero_add]
    exact hfail
  obtain ⟨hl, hp, he, hc⟩ := loopPanels_fail v env.streams i panels 0 hb0 hf0 hlen
  rw [show (0 : Nat) + i + 1 = i + 1 by omega] at he
  exact ⟨hl, hp, he, fun _ _ _ => rfl, hc⟩

/-- Witness for C2: a concrete 3-panel script where panel 1 succeeds and
panel 2's stream yields no image — exactly 1 slide, 2 requests, and the
panel-2 failure message. -/
theorem claim_C2_witness :
    (generate001 "story"
      ⟨Except.ok "\x7b\"characterDescription\":\"cd\",\"panels\":[\x7b\"text\":\"p1\"\x7d,\x7b\"text\":\"p2\"\x7d,\x7b\"text\":\"p3\"\x7d]\x7d",
        fun k => if k = 0 then StreamOutcome.ok [[⟨none, some "D"⟩]]
                 else StreamOutcome.ok [[]]⟩).slides.length = 1 ∧
    (generate001 "story"
      ⟨Except.ok "\x7b\"characterDescription\":\"cd\",\"panels\":[\x7b\"text\":\"p1\"\x7d,\x7b\"text\":\"p2\"\x7d,\x7b\"text\":\"p3\"\x7d]\x7d",
        fun k => if k = 0 then StreamOutcome.ok [[⟨none, some "D"⟩]]
                 else StreamOutcome.ok [[]]⟩).imagePrompts.length = 1 + 1 ∧
    (generate001 "story"
      ⟨Except.ok "\x7b\"characterDescription\":\"cd\",\"panels\":[\x7b\"text\":\"p1\"\x7d,\x7b\"text\":\"p2\"\x7d,\x7b\"text\":\"p3\"\x7d]\x7d",
        fun k => if k = 0 then StreamOutcome.ok [[⟨none, some "D"⟩]]
                 else StreamOutcome.ok [[]]⟩).errorMsg =
      some (panelFailMsg (1 + 1)
        ([Json.obj [("text", Json.str "p1")], Json.obj [("text", Json.str "p2")],
          Json.obj [("text", Json.str "p3")]].get ⟨1, by decide⟩) noImageErrStr) ∧
    (∀ (k : Nat) (p : Json) (e : String), panelFailMsg k p e =
      "<strong>Panel " ++ toString k ++
      " Failed:</strong> Could not generate an image for the text: \"" ++
      jsTemplate (getField? p "text") ++ "\" <br><br><em>Error: " ++ e ++ "</em>") ∧
    (generate001 "story"
      ⟨Except.ok "\x7b\"characterDescription\":\"cd\",\"panels\":[\x7b\"text\":\"p1\"\x7d,\x7b\"text\":\"p2\"\x7d,\x7b\"text\":\"p3\"\x7d]\x7d",
        fun k => if k = 0 then StreamOutcome.ok [[⟨none, some "D"⟩]]
                 else StreamOutcome.ok [[]]⟩).slides.map (·.caption) =
      ([Json.obj [("text", Json.str "p1")], Json.obj [("text", Json.str "p2")],
        Json.obj [("text", Json.str "p3")]].take 1).map (fun p => getField? p "text") :=
  claim_C2 "story"
    ⟨Except.ok "\x7b\"characterDescription\":\"cd\",\"panels\":[\x7b\"text\":\"p1\"\x7d,\x7b\"text\":\"p2\"\x7d,\x7b\"text\":\"p3\"\x7d]\x7d",
      fun k => if k = 0 then StreamOutcome.ok [[⟨none, some "D"⟩]]
               else StreamOutcome.ok [[]]⟩
    "\x7b\"characterDescription\":\"cd\",\"panels\":[\x7b\"text\":\"p1\"\x7d,\x7b\"text\":\"p2\"\x7d,\x7b\"text\":\"p3\"\x7d]\x7d"
    (Json.obj [("characterDescription", Json.str "cd"),
      ("panels", Json.arr [Json.obj [("text", Json.str "p1")],
        Json.obj [("text", Json.str "p2")], Json.obj [("text", Json.str "p3")]])])
    [Json.obj [("text", Json.str "p1")], Json.obj [("text", Json.str "p2")],
      Json.obj [("text", Json.str "p3")]]
    1 (by decide) rfl (by decide) rfl rfl rfl (by decide)
    (by
      intro j hj
      interval_cases j
      exact ⟨[[⟨none, some "D"⟩]], rfl, rfl⟩)
    ⟨[[]], rfl, rfl⟩

/-! ## Captions come from the script, stream text is never displayed -/
theorem loopPanels_captions (script : Json) (streams : Nat → StreamOutcome) :
    ∀ (panels : List Json) (k : Nat),
      (loopPanels script streams panels k).slides.map (·.caption) =
        (panels.take (loopPanels script streams panels k).slides.length).map
          (fun p => getField? p "text") := by
  intro panels
  induction panels with
  | nil => intro k; rfl
  | cons p rest ih =>
    intro k
    cases hstr : streams k with
    | err e => simp [loopPanels, hstr]
    | ok chunks =>
      cases him : (panelFold chunks.flatten).2 with
      | none => simp [loopPanels, hstr, him]
      | some im =>
        simp only [loopPanels, hstr, him, List.map_cons, List.length_cons,
          List.take_succ_cons]
        rw [ih (k + 1)]

theorem pfStep_snd_erase (a1 a2 : String × Option String) (p : Part)
    (hwf : wfPart p) (h : a1.2 = a2.2) :
    (pfStep a1 (erasePartText p)).2 = (pfStep a2 p).2 := by
  unfold pfStep erasePartText partTextTruthy
  rcases hwf with hwt | hwi
  · rw [hwt]
    cases hd : p.inlineData <;> simp [h]
  · rw [hwi]
    cases ht : p.text with
    | none => simp [h]
    | some t => by_cases h0 : t = "" <;> simp [h0, h]

theorem foldl_pfStep_snd_erase :
    ∀ (ps : List Part) (a1 a2 : String × Option String), a1.2 = a2.2 →
      (∀ p ∈ ps, wfPart p) →
      (List.foldl pfStep a1 (ps.map erasePartText)).2 =
        (List.foldl pfStep a2 ps).2 := by
  intro ps
  induction ps with
  | nil => intro a1 a2 h _; exact h
  | cons p rest ih =>
    intro a1 a2 h hwf
    simp only [List.map_cons, List.foldl_cons]
    exact ih _ _ (pfStep_snd_erase a1 a2 p (hwf p (List.mem_cons_self _ _)) h)
      (fun q hq => hwf q (List.mem_cons_of_mem _ hq))

theorem panelFold_snd_erase (ps : List Part) (hwf : ∀ p ∈ ps, wfPart p) :
    (panelFold (ps.map erasePartText)).2 = (panelFold ps).2 :=
  foldl_pfStep_snd_erase ps ("", none) ("", none) rfl hwf

theorem flatten_map_map {α β : Type} (f : α → β) (L : List (List α)) :
    (L.map (List.map f)).flatten = L.flatten.map f := by
  induction L with
  | nil => rfl
  | cons x xs ih => simp only [List.map_cons, List.flatten_cons, List.map_append, ih]

theorem loopPanels_erase (script : Json) (streams : Nat → StreamOutcome)
    (hwf : ∀ k chunks, streams k = StreamOutcome.ok chunks →
      ∀ p ∈ chunks.flatten, wfPart p) :
    ∀ (panels : List Json) (k : Nat),
      loopPanels script (fun k => eraseStreamTexts (streams k)) panels k =
        loopPanels script streams panels k := by
  intro panels
  induction panels with
  | nil => intro k; rfl
  | cons p rest ih =>
    intro k
    cases hstr : streams k with
    | err e =>
      simp only [loopPanels]
      rw [hstr]
      rfl
    | ok chunks =>
      have hfold : (panelFold ((chunks.map (List.map erasePartText)).flatten)).2 =
          (panelFold chunks.flatten).2 := by
        rw [flatten_map_map]
        exact panelFold_snd_erase chunks.flatten (hwf k chunks hstr)
      have h1 : eraseStreamTexts (StreamOutcome.ok chunks) =
          StreamOutcome.ok (chunks.map (List.map erasePartText)) := rfl
      cases him : (panelFold chunks.flatten).2 with
      | none =>
        simp only [loopPanels]
        rw [hstr]
        simp only [h1, hfold, him]
      | some im =>
        simp only [loopPanels]
        rw [hstr]
        simp only [h1, hfold, him]
        rw [ih (k + 1)]

/-- C9: slides of the two-stage pipeline never show the text streamed by
the image model: (i) erasing every text part from every image stream
leaves the entire run output unchanged (the accumulated stream text is
dead); (ii) the caption of every rendered slide is exactly the script
panel's `text` from the parsed ComicScript, in panel order. -/
theorem claim_C9 :
    (∀ (story : String) (env : GenEnv), wfStreams env →
        generate001 story (eraseEnvTexts env) = generate001 story env) ∧
    (∀ (story : String) (env : GenEnv) (s : String) (v : Json) (panels : List Json),
        jsTrim story ≠ "" → env.scriptResp = .ok s → s ≠ "" →
        jsonParse (cleanScript s) = some v → jsTruthy v = true →
        getField? v "panels" = some (Json.arr panels) →
        (generate001 story env).slides.map (·.caption) =
          (panels.take (generate001 story env).slides.length).map
            (fun p => getField? p "text")) := by
  constructor
  · intro story env hwf
    unfold generate001
    by_cases hg : jsTrim story = ""
    · simp [hg]
    · simp only [if_neg hg]
      have hresp : (eraseEnvTexts env).scriptResp = env.scriptResp := rfl
      rw [hresp]
      rcases hgen : generateScript001 env.scriptResp with ⟨o, em⟩
      cases o with
      | none => rfl
      | some v =>
        simp only []
        by_cases hcond : (!jsTruthy v || !jsTruthyOpt (getField? v "panels") ||
            (jsLength (getField? v "panels") == some 0)) = true
        · simp only [hcond, if_true]
        · have hcf := eq_false_of_ne_true hcond
          simp only [hcf, Bool.false_eq_true, if_false]
          cases hit : iterTarget (getField? v "panels") with
          | none => rfl
          | some panels =>
            simp only []
            rw [show (eraseEnvTexts env).streams =
              (fun k => eraseStreamTexts (env.streams k)) from rfl]
            rw [loopPanels_erase v env.streams hwf panels 0]
  · intro story env s v panels hg hr hs hparse htr hpan
    rcases panels with _ | ⟨p, rest⟩
    · have hb3 : (jsLength (getField? v "panels") == some 0) = true := by
        rw [hpan]; rfl
      have hcond : (!jsTruthy v || !jsTruthyOpt (getField? v "panels") ||
          (jsLength (getField? v "panels") == some 0)) = true := by
        rw [hb3]; simp
      simp [generate001, if_neg hg, generateScript001, hr, if_neg hs, hparse, hcond]
    · rw [generate001_loop story env s v (p :: rest) hg hr hs hparse htr hpan
        (by simp)]
      exact loopPanels_captions v env.streams (p :: rest) 0

/-- Witness for C9: a 2-panel script whose streams carry both text parts
and an image part; captions are the script texts. -/
theorem claim_C9_witness :
    (generate001 "story"
      ⟨Except.ok "\x7b\"characterDescription\":\"cd\",\"panels\":[\x7b\"text\":\"p1\"\x7d,\x7b\"text\":\"p2\"\x7d]\x7d",
        fun _ => StreamOutcome.ok [[⟨some "streamed", none⟩, ⟨none, some "D"⟩]]⟩).slides.map
      (·.caption) =
      ([Json.obj [("text", Json.str "p1")], Json.obj [("text", Json.str "p2")]].take
        (generate001 "story"
          ⟨Except.ok "\x7b\"characterDescription\":\"cd\",\"panels\":[\x7b\"text\":\"p1\"\x7d,\x7b\"text\":\"p2\"\x7d]\x7d",
            fun _ => StreamOutcome.ok [[⟨some "streamed", none⟩, ⟨none, some "D"⟩]]⟩).slides.length).map
        (fun p => getField? p "text") :=
  claim_C9.2 "story"
    ⟨Except.ok "\x7b\"characterDescription\":\"cd\",\"panels\":[\x7b\"text\":\"p1\"\x7d,\x7b\"text\":\"p2\"\x7d]\x7d",
      fun _ => StreamOutcome.ok [[⟨some "streamed", none⟩, ⟨none, some "D"⟩]]⟩
    "\x7b\"characterDescription\":\"cd\",\"panels\":[\x7b\"text\":\"p1\"\x7d,\x7b\"text\":\"p2\"\x7d]\x7d"
    (Json.obj [("characterDescription", Json.str "cd"),
      ("panels", Json.arr [Json.obj [("text", Json.str "p1")],
        Json.obj [("text", Json.str "p2")]])])
    [Json.obj [("text", Json.str "p1")], Json.obj [("text", Json.str "p2")]]
    (by decide) rfl (by decide) rfl rfl rfl

/-! ## Run-boundary error handling -/
theorem generateScript001_err_shape (resp : Except String String)
    (o : Option Json) (m : String) (h : generateScript001 resp = (o, some m)) :
    ∃ e, m = scriptFailMsg e := by
  cases resp with
  | error e =>
    simp only [generateScript001] at h
    refine ⟨e, ?_⟩
    injection h with h1 h2
    injection h2 with h3
    exact h3.symm
  | ok s =>
    simp only [generateScript001] at h
    by_cases hs : s = ""
    · rw [if_pos hs] at h
      refine ⟨noRespErrStr, ?_⟩
      injection h with h1 h2
      injection h2 with h3
      exact h3.symm
    · rw [if_neg hs] at h
      cases hp : jsonParse (cleanScript s) with
      | none =>
        rw [hp] at h
        refine ⟨jsonParseErrStr, ?_⟩
        injection h with h1 h2
        injection h2 with h3
        exact h3.symm
      | some v =>
        rw [hp] at h
        injection h with h1 h2
        cases h2

theorem loopPanels_err_shape (script : Json) (streams : Nat → StreamOutcome) :
    ∀ (panels : List Json) (k : Nat) (m : String),
      (loopPanels script streams panels k).err = some m →
      ∃ e kk p, m = panelFailMsg kk p e := by
  intro panels
  induction panels with
  | nil => intro k m h; cases h
  | cons p rest ih =>
    intro k m h
    cases hstr : streams k with
    | err e =>
      simp only [loopPanels, hstr] at h
      exact ⟨e, k + 1, p, (Option.some_inj.1 h).symm⟩
    | ok chunks =>
      cases him : (panelFold chunks.flatten).2 with
      | none =>
        simp only [loopPanels, hstr, him] at h
        exact ⟨noImageErrStr, k + 1, p, (Option.some_inj.1 h).symm⟩
      | some im =>
        simp only [loopPanels, hstr, him] at h
        exact ih (k + 1) m h

/-- C8: on the enumerated exit paths the input control is re-enabled and
errors become user-visible messages embedding the error detail:
(i) `index.tsx` always re-enables the input (its catch is total);
(ii) its caught errors are shown as `Something went wrong: ` followed by
`parseError` of the raw detail — verbatim the raw detail whenever the
error-extraction regex does not match; (iii) `part_000` always re-enables
the input; (iv) in the two-stage pipeline the input is disabled at the
end exactly on the uncaught-TypeError path (`crashed`), i.e. re-enabled
on every caught path; (v) every error message of the two-stage run is a
script-failure or panel-failure message for some detail `e`; and both
templates (vi, vii) embed the raw detail verbatim. -/
theorem claim_C8 :
    (∀ (m : String) (env : IndexEnv), (generateIndex m env).inputDisabledAtEnd = false) ∧
    (∀ (m e : String) (env : IndexEnv), env.streamResp = .error e →
        (generateIndex m env).errorMsg =
          some ("Something went wrong: " ++ jsValueToStr (parseErrorModel e)) ∧
        (regexCapture e = none →
          (generateIndex m env).errorMsg = some ("Something went wrong: " ++ e))) ∧
    (∀ (m : String) (env : IndexEnv), (generate000 m env).inputDisabledAtEnd = false) ∧
    (∀ (story : String) (env : GenEnv),
        (generate001 story env).inputDisabledAtEnd = (generate001 story env).crashed) ∧
    (∀ (story : String) (env : GenEnv) (m : String),
        (generate001 story env).errorMsg = some m →
        ∃ e, m = scriptFailMsg e ∨ ∃ k p, m = panelFailMsg k p e) ∧
    (∀ e, scriptFailMsg e =
        "<strong>Scriptwriting Failed:</strong> The AI failed to generate a valid story script. This can happen with complex stories. Please try simplifying your prompt. <br><br><em>Error: " ++
          e ++ "</em>") ∧
    (∀ (k : Nat) (p : Json) (e : String), panelFailMsg k p e =
        "<strong>Panel " ++ toString k ++
        " Failed:</strong> Could not generate an image for the text: \"" ++
        jsTemplate (getField? p "text") ++ "\" <br><br><em>Error: " ++ e ++ "</em>") := by
  refine ⟨?_, ?_, ?_, ?_, ?_, fun _ => rfl, fun _ _ _ => rfl⟩
  · intro m env
    cases h : env.streamResp <;> simp [generateIndex, h]
  · intro m e env h
    constructor
    · simp [generateIndex, h]
    · intro hnone
      simp [generateIndex, h, parseErrorModel, hnone, jsValueToStr, jsonToStr]
  · intro m env
    by_cases hg : jsTrim m = ""
    · simp [generate000, hg]
    · cases h : env.streamResp <;> simp [generate000, hg, h]
  · intro story env
    unfold generate001
    by_cases hg : jsTrim story = ""
    · simp [hg, idleRun]
    · simp only [if_neg hg]
      rcases hgen : generateScript001 env.scriptResp with ⟨o, em⟩
      cases o with
      | none => rfl
      | some v =>
        simp only []
        by_cases hcond : (!jsTruthy v || !jsTruthyOpt (getField? v "panels") ||
            (jsLength (getField? v "panels") == some 0)) = true
        · simp only [hcond, if_true]
        · have hcf := eq_false_of_ne_true hcond
          simp only [hcf, Bool.false_eq_true, if_false]
          cases iterTarget (getField? v "panels") <;> rfl
  · intro story env m
    unfold generate001
    by_cases hg : jsTrim story = ""
    · simp only [if_pos hg, idleRun]
      intro h
      cases h
    · simp only [if_neg hg]
      rcases hgen : generateScript001 env.scriptResp with ⟨o, em⟩
      cases o with
      | none =>
        intro h
        simp only [] at h
        obtain ⟨e, he⟩ := generateScript001_err_shape env.scriptResp none m
          (by rw [hgen, h])
        exact ⟨e, Or.inl he⟩
      | some v =>
        simp only []
        by_cases hcond : (!jsTruthy v || !jsTruthyOpt (getField? v "panels") ||
            (jsLength (getField? v "panels") == some 0)) = true
        · simp only [hcond, if_true]
          intro h
          cases h
        · have hcf := eq_false_of_ne_true hcond
          simp only [hcf, Bool.false_eq_true, if_false]
          cases iterTarget (getField? v "panels") with
          | none => intro h; cases h
          | some panels =>
            intro h
            simp only [] at h
            obtain ⟨e, kk, p, he⟩ := loopPanels_err_shape v env.streams panels 0 m h
            exact ⟨e, Or.inr ⟨kk, p, he⟩⟩

/-- Witness for C8: a caught transport error in `index.tsx` shows the raw
detail and leaves the input enabled. -/
theorem claim_C8_witness :
    (generateIndex "m" ⟨Except.error "boom"⟩).errorMsg =
      some ("Something went wrong: " ++ "boom") :=
  ((claim_C8.2.1 "m" "boom" ⟨Except.error "boom"⟩ rfl).2) rfl

/-- Witness for C7 at the parts `[text:"a", text:"b"]`:
the two text fragments are concatenated (not replaced); nothing was
emitted yet at the prefix end, so both parts are still pending. -/
theorem claim_C7_witness :
    (processPartsP initP [⟨some "a", none⟩, ⟨some "b", none⟩]).st =
        processParts initSt [⟨some "a", none⟩, ⟨some "b", none⟩] ∧
    (∃ pre, [(⟨some "a", none⟩ : Part), ⟨some "b", none⟩] =
        pre ++ (processPartsP initP [⟨some "a", none⟩, ⟨some "b", none⟩]).pending) ∧
    (processPartsP initP [⟨some "a", none⟩, ⟨some "b", none⟩]).st.text =
        concatTexts (processPartsP initP [⟨some "a", none⟩, ⟨some "b", none⟩]).pending ∧
    (processPartsP initP [⟨some "a", none⟩, ⟨some "b", none⟩]).st.img =
      ((lastImageFrag (processPartsP initP
          [⟨some "a", none⟩, ⟨some "b", none⟩]).pending).map mkImgSrc) :=
  claim_C7 [⟨some "a", none⟩, ⟨some "b", none⟩]
    (by intro p hp; fin_cases hp <;> simp [wfPart])

end Comwork

